import Mathlib

/-!
# Verification of the `stopwatch` terminal timer

Shallow embedding of `src/stopwatch.py`. The impure clock (`time.time()`)
is modelled by passing the current clock reading `now : ℚ` explicitly to
each operation that reads it; all other state is carried in explicit
structures. Wall-clock readings are rationals (Python floats are modelled
exactly; no rounding behaviour is at stake in any claim).
-/

namespace Stopwatch

/-- State of the `Timer` class: `_started`, `_time_start`, `_time_stop`.

```python
class Timer:
    _started: bool
    _time_start: float
    _time_stop: float
```
-/
structure Timer where
  started : Bool
  time_start : ℚ
  time_stop : ℚ
deriving DecidableEq, Repr

/-- `Timer.__init__`: sets `_started = False` then calls `reset()`,
which sets both references to `0`. -/
def Timer.init : Timer :=
  { started := false, time_start := 0, time_stop := 0 }

/-- `is_started` property: `return self._started`. -/
def Timer.is_started (tm : Timer) : Bool :=
  tm.started

/-- `elapsed_time` property:
`return (time() if self._started else self._time_stop) - self._time_start`.
The clock reading `time()` at the moment of the query is the argument `now`. -/
def Timer.elapsed_time (tm : Timer) (now : ℚ) : ℚ :=
  (if tm.started then now else tm.time_stop) - tm.time_start

/-- `reset`: `self._time_start = self._time_stop = 0`.
Note the Python method does not touch `self._started`. -/
def Timer.reset (tm : Timer) : Timer :=
  { tm with time_start := 0, time_stop := 0 }

/-- `start`:
```python
if self._time_start:
    self._time_start += time() - self._time_stop
else:
    self._time_start = time()
self._started = True
```
Python float truthiness: the first branch is taken iff `_time_start ≠ 0`. -/
def Timer.start (tm : Timer) (now : ℚ) : Timer :=
  if tm.time_start ≠ 0 then
    { tm with time_start := tm.time_start + (now - tm.time_stop), started := true }
  else
    { tm with time_start := now, started := true }

/-- `stop`: `self._time_stop = time(); self._started = False`. -/
def Timer.stop (tm : Timer) (now : ℚ) : Timer :=
  { tm with time_stop := now, started := false }

/-! ## Sequences of timer operations -/

/-- The three mutating `Timer` operations the `App` can issue. -/
inductive Op where
  | reset
  | start
  | stop
deriving DecidableEq, Repr

/-- Apply one operation at clock reading `t`. `reset` ignores the clock. -/
def applyOp (op : Op) (t : ℚ) (tm : Timer) : Timer :=
  match op with
  | Op.reset => tm.reset
  | Op.start => tm.start t
  | Op.stop => tm.stop t

/-- Run a list of timestamped operations, oldest first. -/
def runOps (tm : Timer) : List (Op × ℚ) → Timer
  | [] => tm
  | (op, t) :: rest => runOps (applyOp op t tm) rest

/-- Run an alternating `start a; stop b` sequence, one pair per interval. -/
def runPairs (tm : Timer) : List (ℚ × ℚ) → Timer
  | [] => tm
  | (a, b) :: rest => runPairs ((tm.start a).stop b) rest

/-- Sum of the interval durations of an alternating start/stop sequence. -/
def sumIntervals (l : List (ℚ × ℚ)) : ℚ :=
  (l.map fun p => p.2 - p.1).sum

/-- The clock readings of an alternating sequence are non-decreasing,
starting at or after `c`: `c ≤ a₁ ≤ b₁ ≤ a₂ ≤ b₂ ≤ ...`. -/
def pairsChain : ℚ → List (ℚ × ℚ) → Prop
  | _, [] => True
  | c, (a, b) :: rest => c ≤ a ∧ a ≤ b ∧ pairsChain b rest

instance (c : ℚ) (l : List (ℚ × ℚ)) : Decidable (pairsChain c l) := by
  induction l generalizing c with
  | nil => exact isTrue trivial
  | cons p rest ih =>
    have := ih p.2
    unfold pairsChain
    exact instDecidableAnd

/-- The clock readings of an operation list are non-decreasing starting at
or after `c`, and `start` is only ever issued while the timer is stopped
(the `App` guarantees this: the `S` key toggles). -/
def wellFormed : ℚ → Timer → List (Op × ℚ) → Prop
  | _, _, [] => True
  | c, tm, (op, t) :: rest =>
      c ≤ t ∧ (op = Op.start → tm.started = false) ∧ wellFormed t (applyOp op t tm) rest

instance (c : ℚ) (tm : Timer) (l : List (Op × ℚ)) : Decidable (wellFormed c tm l) := by
  induction l generalizing c tm with
  | nil => exact isTrue trivial
  | cons e rest ih =>
    have := ih e.2 (applyOp e.1 e.2 tm)
    unfold wellFormed
    exact instDecidableAnd

/-- Clock reading of the last operation of the list (or `c` if empty). -/
def endTime (c : ℚ) : List (Op × ℚ) → ℚ
  | [] => c
  | (_, t) :: rest => endTime t rest

/-! ## App-level state: hue cycler, key handling, separator, digit table -/

/-- `PALETTE_START_INDEX = 16` (curses palette slot; not otherwise modelled). -/
def PALETTE_START_INDEX : ℕ := 16

/-- The fixed 50-character digit encoding string `DIGITS`. -/
def DIGITS : String :=
  "f999f11111f1f8ff1f1f99f11f8f1ff8f9ff1111f9f9ff9f1f"

/-- Python `int(c, 16)` restricted to single hex digit characters
(the only use in the source, in `_unpack_digits`). -/
def hexVal (c : Char) : ℕ :=
  if '0' ≤ c ∧ c ≤ '9' then c.toNat - 48
  else if 'a' ≤ c ∧ c ≤ 'f' then c.toNat - 87
  else if 'A' ≤ c ∧ c ≤ 'F' then c.toNat - 55
  else 0

/-- `App._unpack_digits`:
```python
self._digits = tuple(
    map(lambda n: tuple(int(n[j], 16) for j in range(5)),
        (DIGITS[i : i + 5] for i in range(0, len(DIGITS), 5)))
)
```
One entry per chunk of 5 characters of `DIGITS`, each entry the 5 decoded
hex nibbles. -/
def unpack_digits : List (List ℕ) :=
  (List.range (DIGITS.length / 5)).map fun i =>
    (List.range 5).map fun j => hexVal (DIGITS.toList.getD (5 * i + j) '0')

/-- The mutable `App` state the claims are about: the termination flag
`_running`, the hue `_hue`, and the owned `_timer`. (The curses screen and
color slots are external collaborators and carry no modelled state.) -/
structure AppState where
  running : Bool
  hue : ℕ
  timer : Timer
deriving DecidableEq, Repr

/-- `App._update`: `if self._timer.is_started: self._set_hue((self._hue + 1) % 360)`.
`_set_hue` stores the hue and reprograms a terminal color slot (external). -/
def App.update (st : AppState) : AppState :=
  if st.timer.is_started then { st with hue := (st.hue + 1) % 360 } else st

/-- `App._reset`: `self._set_hue(0); self._timer.reset()`. -/
def App.reset (st : AppState) : AppState :=
  { st with hue := 0, timer := st.timer.reset }

/-- `App._read_keys`, with `c` the key code returned by `getch()`
(`-1` when no key is pending) and `now` the clock reading used by a
resulting `start`/`stop` call:
```python
if (c := self._screen.getch()) in {ord("q"), ord("Q")}:
    self._running = False
elif c in {ord("r"), ord("R")} and not self._timer.is_started:
    self._reset()
elif c in {ord("s"), ord("S")}:
    self._timer.stop() if self._timer.is_started else self._timer.start()
```
Key codes: `q` = 113, `Q` = 81, `r` = 114, `R` = 82, `s` = 115, `S` = 83. -/
def App.read_keys (c : ℤ) (now : ℚ) (st : AppState) : AppState :=
  if c = 113 ∨ c = 81 then { st with running := false }
  else if (c = 114 ∨ c = 82) ∧ ¬st.timer.is_started then App.reset st
  else if c = 115 ∨ c = 83 then
    { st with timer := if st.timer.is_started then st.timer.stop now else st.timer.start now }
  else st

/-- The separator condition of `App._draw`:
`if self._timer.is_started or (int(time() * 2)) & 0b1:` — the two-cell
separator block is drawn exactly when this is true. `int` truncates, which
on the non-negative wall clock equals `⌊·⌋`; `& 0b1` is the low bit. -/
def separator_visible (tm : Timer) (now : ℚ) : Bool :=
  tm.is_started || (⌊now * 2⌋ % 2 = 1)

/-! ## Claims -/

/-- C7: the digit glyph table is the pure decode of the fixed 50-character
hex encoding: one entry per decimal digit 0–9, each entry the 5 row-masks
obtained from the digit's 5 hex characters; entry 5 (encoding `f8f1f`)
decodes to `[0xf, 0x8, 0xf, 0x1, 0xf]`. -/
theorem unpack_digits_decodes_encoding :
    unpack_digits.length = 10 ∧
    (∀ row ∈ unpack_digits, row.length = 5) ∧
    unpack_digits.getD 5 [] = [15, 8, 15, 1, 15] := by
  decide

/-- C10: calling `stop()` on a Timer whose start reference is still `0`
(never started since construction or since the last `reset()`) makes every
later `elapsed_time` query return the raw clock reading taken at that
`stop()` (`now − 0`), not `0`. -/
theorem stop_on_fresh_timer_elapsed (tm : Timer) (t u : ℚ)
    (h : tm.time_start = 0) :
    (tm.stop t).elapsed_time u = t := by
  simp [Timer.stop, Timer.elapsed_time, h]

theorem stop_on_fresh_timer_elapsed_witness :
    (Timer.init.stop 3).elapsed_time 7 = 3 :=
  stop_on_fresh_timer_elapsed Timer.init 3 7 rfl

/-- C2, counterexample: `reset()` does not clear the started flag. On a
started Timer (started at clock 1), after `reset()` the flag is still set
and `elapsed_time` at clock 2 reads the full clock value 2, not 0. -/
theorem reset_keeps_started_flag :
    ((Timer.init.start 1).reset).is_started = true ∧
    ((Timer.init.start 1).reset).elapsed_time 2 = 2 := by
  constructor
  · rfl
  · norm_num [Timer.init, Timer.start, Timer.reset, Timer.elapsed_time]

/-- C2, amended: `reset()` sets both references to zero and leaves the
started flag unchanged; when the Timer is not started at the moment of the
reset, `elapsed_time` thereafter reads 0 (at every query time) and
`is_started` is false. -/
theorem reset_zeroes_references (tm : Timer) (u : ℚ) :
    tm.reset.time_start = 0 ∧ tm.reset.time_stop = 0 ∧
    tm.reset.started = tm.started ∧
    (tm.started = false →
      tm.reset.elapsed_time u = 0 ∧ tm.reset.is_started = false) := by
  refine ⟨rfl, rfl, rfl, fun h => ⟨?_, ?_⟩⟩ <;>
    simp [Timer.reset, Timer.elapsed_time, Timer.is_started, h]

theorem reset_zeroes_references_witness :
    ((Timer.init.stop 5).reset).elapsed_time 9 = 0 ∧
    ((Timer.init.stop 5).reset).is_started = false :=
  (reset_zeroes_references (Timer.init.stop 5) 9).2.2.2 rfl

/-- C3, counterexample: a redundant `start()` on an already-started Timer
changes the accumulated elapsed time. Start at clock 1, redundant start at
clock 5: the query at clock 7 returns 1, whereas without the redundant
start it returns 6. -/
theorem start_while_started_changes_elapsed :
    ((Timer.init.start 1).start 5).elapsed_time 7 = 1 ∧
    (Timer.init.start 1).elapsed_time 7 = 6 ∧
    ((Timer.init.start 1).start 5).elapsed_time 7 ≠
      (Timer.init.start 1).elapsed_time 7 := by
  norm_num [Timer.init, Timer.start, Timer.elapsed_time]

/-- C3, amended: calling `start()` on an already-started Timer whose start
reference is nonzero shifts the start reference forward by
`now − stop_reference` (the stop reference being stale), so every later
`elapsed_time` reading is reduced by exactly that amount; it is unchanged
only when `now` equals the stale stop reference. -/
theorem start_while_started_shifts_reference (tm : Timer) (t u : ℚ)
    (hs : tm.started = true) (h0 : tm.time_start ≠ 0) :
    (tm.start t).elapsed_time u =
      tm.elapsed_time u - (t - tm.time_stop) := by
  simp [Timer.start, h0, Timer.elapsed_time, hs]
  ring

theorem start_while_started_shifts_reference_witness :
    ((Timer.init.start 1).start 5).elapsed_time 7 =
      (Timer.init.start 1).elapsed_time 7 -
        (5 - (Timer.init.start 1).time_stop) :=
  start_while_started_shifts_reference (Timer.init.start 1) 5 7
    (by norm_num [Timer.init, Timer.start])
    (by norm_num [Timer.init, Timer.start])

/-- C9, counterexample: a redundant `stop()` does not leave `elapsed_time`
unchanged. Start at clock 1, stop at clock 2 (elapsed 1); a second stop at
clock 5 makes elapsed jump to 4. -/
theorem stop_while_stopped_changes_elapsed :
    (((Timer.init.start 1).stop 2).stop 5).elapsed_time 9 = 4 ∧
    ((Timer.init.start 1).stop 2).elapsed_time 9 = 1 ∧
    (((Timer.init.start 1).stop 2).stop 5).elapsed_time 9 ≠
      ((Timer.init.start 1).stop 2).elapsed_time 9 := by
  norm_num [Timer.init, Timer.start, Timer.stop, Timer.elapsed_time]

/-- C9, amended: while the Timer is stopped, repeated `elapsed_time`
queries with no intervening operation all return the same value; a
redundant `stop()` at clock `t`, however, refreshes the stop reference, so
`elapsed_time` becomes `t − start_reference` — unchanged only when `t`
equals the previous stop reference. -/
theorem elapsed_frozen_while_stopped (tm : Timer) (u v t : ℚ)
    (h : tm.started = false) :
    tm.elapsed_time u = tm.elapsed_time v ∧
    (tm.stop t).elapsed_time u = t - tm.time_start ∧
    ((tm.stop t).elapsed_time u = tm.elapsed_time u ↔ t = tm.time_stop) := by
  refine ⟨by simp [Timer.elapsed_time, h], by simp [Timer.stop, Timer.elapsed_time], ?_⟩
  simp [Timer.stop, Timer.elapsed_time, h]

theorem elapsed_frozen_while_stopped_witness :
    ((Timer.init.start 1).stop 2).elapsed_time 9 =
      ((Timer.init.start 1).stop 2).elapsed_time 100 ∧
    (((Timer.init.start 1).stop 2).stop 5).elapsed_time 9 =
      5 - ((Timer.init.start 1).stop 2).time_start ∧
    ((((Timer.init.start 1).stop 2).stop 5).elapsed_time 9 =
        ((Timer.init.start 1).stop 2).elapsed_time 9 ↔
      (5 : ℚ) = ((Timer.init.start 1).stop 2).time_stop) :=
  elapsed_frozen_while_stopped ((Timer.init.start 1).stop 2) 9 100 5
    (by norm_num [Timer.init, Timer.start, Timer.stop])

/-- C6: an `R` key (codes 114 and 82) received while the Timer is started
leaves the whole application state — timer references, started flag, hue
and running flag — unchanged; the reset request is denied silently. -/
theorem reset_key_rejected_while_started (st : AppState) (now : ℚ)
    (h : st.timer.is_started = true) :
    App.read_keys 114 now st = st ∧ App.read_keys 82 now st = st := by
  constructor <;> norm_num [App.read_keys, h]

theorem reset_key_rejected_while_started_witness :
    App.read_keys 114 2 ⟨true, 7, Timer.init.start 1⟩ =
      ⟨true, 7, Timer.init.start 1⟩ ∧
    App.read_keys 82 2 ⟨true, 7, Timer.init.start 1⟩ =
      ⟨true, 7, Timer.init.start 1⟩ :=
  reset_key_rejected_while_started ⟨true, 7, Timer.init.start 1⟩ 2
    (by norm_num [Timer.init, Timer.start, Timer.is_started])

/-- Iterating `App._update` while the timer is started leaves the timer
untouched and advances the hue by one per tick, modulo 360. -/
lemma update_iterate_hue (st : AppState) (hs : st.timer.is_started = true)
    (h0 : st.hue = 0) :
    ∀ N : ℕ, (App.update^[N] st).timer = st.timer ∧
      (App.update^[N] st).hue = N % 360
  | 0 => by simpa using h0
  | N + 1 => by
    obtain ⟨ht, hh⟩ := update_iterate_hue st hs h0 N
    rw [Function.iterate_succ_apply']
    have hb : (App.update^[N] st).timer.is_started = true := by rw [ht]; exact hs
    refine ⟨?_, ?_⟩
    · simp [App.update, hb, ht, hs]
    · simp [App.update, hb, hh]

/-- C5: the hue is 0 immediately after `App._reset`; starting from hue 0,
after `N` render ticks (`App._update`) while the Timer is started the hue
equals `N mod 360`; a tick while the Timer is stopped changes nothing. -/
theorem hue_reset_and_ticks (st : AppState) (N : ℕ) :
    (App.reset st).hue = 0 ∧
    (st.timer.is_started = true → st.hue = 0 →
      (App.update^[N] st).hue = N % 360) ∧
    (∀ st2 : AppState, st2.timer.is_started = false → App.update st2 = st2) := by
  refine ⟨rfl, fun hs h0 => (update_iterate_hue st hs h0 N).2, fun st2 h2 => ?_⟩
  simp [App.update, h2]

theorem hue_reset_and_ticks_witness :
    (App.reset ⟨true, 0, Timer.init.start 1⟩).hue = 0 ∧
    (App.update^[3] (⟨true, 0, Timer.init.start 1⟩ : AppState)).hue = 3 % 360 ∧
    App.update ⟨true, 5, Timer.init⟩ = ⟨true, 5, Timer.init⟩ := by
  have h := hue_reset_and_ticks ⟨true, 0, Timer.init.start 1⟩ 3
  exact ⟨h.1, h.2.1 (by norm_num [Timer.init, Timer.start, Timer.is_started]) rfl,
    h.2.2 ⟨true, 5, Timer.init⟩ rfl⟩

/-- C8, counterexample: during an even half-second window the stopped-state
separator is hidden, not visible. At wall clock 1/4 we have
`⌊now·2⌋ mod 2 = 0` (an even window), the Timer is stopped, and the code
does not draw the separator. -/
theorem separator_hidden_in_even_window :
    Timer.init.is_started = false ∧
    ⌊((1 : ℚ) / 4) * 2⌋ % 2 = 0 ∧
    separator_visible Timer.init (1 / 4) = false := by
  refine ⟨rfl, by norm_num, ?_⟩
  norm_num [separator_visible, Timer.init, Timer.is_started]

/-- C8, amended: the separator is drawn on every tick while the Timer is
started; while the Timer is stopped it is drawn exactly during the odd
half-second windows of the wall clock (`⌊now·2⌋ mod 2 = 1`) and hidden
during the even ones. -/
theorem separator_solid_or_odd_blink (tm : Timer) (now : ℚ) :
    (tm.is_started = true → separator_visible tm now = true) ∧
    (tm.is_started = false →
      (separator_visible tm now = true ↔ ⌊now * 2⌋ % 2 = 1)) := by
  constructor <;> intro h <;> simp [separator_visible, h]

theorem separator_solid_or_odd_blink_witness :
    separator_visible Timer.init (3 / 4) = true ↔
      ⌊((3 : ℚ) / 4) * 2⌋ % 2 = 1 :=
  (separator_solid_or_odd_blink Timer.init (3 / 4)).2 rfl

/-- Running an alternating start/stop sequence from a stopped state with a
positive start reference keeps the timer stopped with a positive start
reference at or below the stop reference, and accumulates exactly the sum
of the interval durations on top of the elapsed time already recorded. -/
lemma runPairs_accumulates (l : List (ℚ × ℚ)) :
    ∀ s p : ℚ, 0 < s → s ≤ p → pairsChain p l →
      (runPairs ⟨false, s, p⟩ l).started = false ∧
      0 < (runPairs ⟨false, s, p⟩ l).time_start ∧
      (runPairs ⟨false, s, p⟩ l).time_start ≤ (runPairs ⟨false, s, p⟩ l).time_stop ∧
      (runPairs ⟨false, s, p⟩ l).time_stop - (runPairs ⟨false, s, p⟩ l).time_start
        = (p - s) + sumIntervals l := by
  induction l with
  | nil =>
    intro s p hs hsp _
    refine ⟨rfl, hs, hsp, ?_⟩
    simp [runPairs, sumIntervals]
  | cons ab rest ih =>
    obtain ⟨a, b⟩ := ab
    intro s p hs hsp hch
    obtain ⟨hpa, hab, hch2⟩ := hch
    have h1 : runPairs (⟨false, s, p⟩ : Timer) ((a, b) :: rest)
        = runPairs ⟨false, s + (a - p), b⟩ rest := by
      simp [runPairs, Timer.start, Timer.stop, hs.ne']
    have key := ih (s + (a - p)) b (by linarith) (by linarith) hch2
    rw [h1]
    refine ⟨key.1, key.2.1, key.2.2.1, ?_⟩
    rw [key.2.2.2]
    simp [sumIntervals]
    ring

/-- C1, amended: for every alternating `start t₁; stop t₂; start t₃; ...`
sequence with non-decreasing clock readings whose first start happens at a
positive clock reading (always true of the real wall clock `time()`),
`elapsed_time` after the final stop equals the sum of the durations of the
started intervals. (With a first start at clock reading exactly 0 the
start-reference sentinel `if self._time_start:` misfires; see the
counterexample.) -/
theorem elapsed_after_alternating (a b : ℚ) (l : List (ℚ × ℚ)) (u : ℚ)
    (ha : 0 < a) (hab : a ≤ b) (hch : pairsChain b l) :
    (runPairs Timer.init ((a, b) :: l)).elapsed_time u
      = sumIntervals ((a, b) :: l) := by
  have h1 : runPairs Timer.init ((a, b) :: l) = runPairs ⟨false, a, b⟩ l := by
    simp [runPairs, Timer.init, Timer.start, Timer.stop]
  have key := runPairs_accumulates l a b ha hab hch
  rw [h1] at *
  rw [Timer.elapsed_time, if_neg (by rw [key.1]; simp)]
  rw [key.2.2.2]
  simp [sumIntervals]

theorem elapsed_after_alternating_witness :
    (runPairs Timer.init [(1, 2), (3, 5)]).elapsed_time 9
      = sumIntervals [(1, 2), (3, 5)] :=
  elapsed_after_alternating 1 2 [(3, 5)] 9 (by norm_num) (by norm_num)
    (by norm_num [pairsChain])

/-- C1, counterexample: the accumulation fails when the first start happens
at clock reading exactly 0. Start at 0, stop at 1, start at 5, stop at 6:
the code reports elapsed 1, while the claimed sum of started intervals is
`(1 − 0) + (6 − 5) = 2` — the second start hits the zero start-reference
sentinel and discards the first interval. -/
theorem elapsed_after_alternating_from_zero :
    (runPairs Timer.init [(0, 1), (5, 6)]).elapsed_time 6 = 1 ∧
    sumIntervals [((0 : ℚ), (1 : ℚ)), (5, 6)] = 2 := by
  constructor
  · norm_num [runPairs, Timer.init, Timer.start, Timer.stop, Timer.elapsed_time]
  · norm_num [sumIntervals]

/-- Invariant threaded through a well-formed operation sequence whose last
operation happened at clock reading `c`: the clock is non-negative, the
start reference is non-negative, the stop reference is in the past, and
the start reference is bounded by the clock (while started) or by the stop
reference (while stopped). -/
def Inv (c : ℚ) (tm : Timer) : Prop :=
  0 ≤ c ∧ 0 ≤ tm.time_start ∧ tm.time_stop ≤ c ∧
    (if tm.started then tm.time_start ≤ c else tm.time_start ≤ tm.time_stop)

lemma inv_elapsed_nonneg (c u : ℚ) (tm : Timer) (h : Inv c tm) (hu : c ≤ u) :
    0 ≤ tm.elapsed_time u := by
  obtain ⟨hc, hs0, hpc, hcase⟩ := h
  rw [Timer.elapsed_time]
  cases hb : tm.started <;> rw [hb] at hcase <;> simp at hcase ⊢ <;> linarith

lemma inv_step (c t : ℚ) (tm : Timer) (op : Op) (h : Inv c tm) (hct : c ≤ t)
    (hst : op = Op.start → tm.started = false) : Inv t (applyOp op t tm) := by
  obtain ⟨hc, hs0, hpc, hcase⟩ := h
  cases op with
  | reset =>
    simp only [applyOp, Timer.reset]
    refine ⟨by linarith, by simp, by simp; linarith, ?_⟩
    split <;> simp
    linarith
  | start =>
    have hb : tm.started = false := hst rfl
    rw [hb] at hcase; simp at hcase
    simp only [applyOp, Timer.start]
    by_cases h0 : tm.time_start = 0
    · rw [if_neg (by simp [h0])]
      exact ⟨by linarith, by linarith, by linarith, by simp⟩
    · rw [if_pos h0]
      refine ⟨by linarith, by simp; linarith, by simp; linarith, by simp; linarith⟩
  | stop =>
    have hsc : tm.time_start ≤ c := by
      cases hb : tm.started <;> rw [hb] at hcase <;> simp at hcase <;> linarith
    simp only [applyOp, Timer.stop]
    exact ⟨by linarith, hs0, by simp, by simp; linarith⟩

lemma inv_run : ∀ (l : List (Op × ℚ)) (c : ℚ) (tm : Timer), Inv c tm →
    wellFormed c tm l → Inv (endTime c l) (runOps tm l)
  | [], _, _, h, _ => h
  | (op, t) :: rest, c, tm, h, hwf => by
    obtain ⟨hct, hst, hwf2⟩ := hwf
    exact inv_run rest t (applyOp op t tm) (inv_step c t tm op h hct hst) hwf2

/-- C4, amended: `elapsed_time` never returns a negative value over any
sequence of `reset`/`start`/`stop` operations with non-decreasing,
non-negative clock readings in which `start()` is never issued while the
Timer is already started (the `App` guarantees this: the `S` key toggles),
for queries at or after the last operation. (A redundant `start()` on a
running Timer can drive it negative; see the counterexample.) -/
theorem elapsed_nonneg_gated (l : List (Op × ℚ)) (u : ℚ)
    (hwf : wellFormed 0 Timer.init l) (hu : endTime 0 l ≤ u) :
    0 ≤ (runOps Timer.init l).elapsed_time u := by
  have hinv : Inv 0 Timer.init := by
    refine ⟨le_refl 0, le_refl 0, le_refl 0, ?_⟩
    simp [Timer.init]
  exact inv_elapsed_nonneg _ u _ (inv_run l 0 Timer.init hinv hwf) hu

theorem elapsed_nonneg_gated_witness :
    0 ≤ (runOps Timer.init
      [(Op.start, 1), (Op.stop, 2), (Op.start, 3)]).elapsed_time 4 :=
  elapsed_nonneg_gated [(Op.start, 1), (Op.stop, 2), (Op.start, 3)] 4
    (by norm_num [wellFormed, applyOp, Timer.init, Timer.start, Timer.stop]
        decide)
    (by norm_num [endTime])

/-- C4, counterexample: with a non-decreasing clock, the sequence
`start at 1; start at 5` (a redundant start on a running Timer) makes
`elapsed_time` at clock 5 equal to −1, a negative value: the redundant
start shifts the start reference to `1 + (5 − 0) = 6`, past the clock. -/
theorem elapsed_negative_after_double_start :
    (runOps Timer.init [(Op.start, 1), (Op.start, 5)]).elapsed_time 5 = -1 ∧
    (runOps Timer.init [(Op.start, 1), (Op.start, 5)]).elapsed_time 5 < 0 := by
  constructor <;>
    norm_num [runOps, applyOp, Timer.init, Timer.start, Timer.elapsed_time]

end Stopwatch

